import Mathlib

/-!
Shallow embedding of the animation and carousel utilities of the
Construction-co repository (src/src/App.jsx and its variant
src/unnamed/part_000), together with proofs and refutations of the
specification claims about them.

The embedded pieces are:
* `useInView` (App.jsx lines 14-42): an IntersectionObserver-driven
  visibility tracker with an optional permanent latch;
* the HomePage carousel (App.jsx lines 384-424): periodic auto-advance
  plus manual previous/next navigation with timer reset;
* `useFrameAnimation` (App.jsx lines 130-162): a requestAnimationFrame
  driven value animator.
-/

namespace ConstructionCo

/-! ### Visibility tracker: `useInView`

The hook keeps two pieces of React state, `inView` and `hasAnimated`,
and installs an IntersectionObserver whose callback is

```js
if (entry.isIntersecting && !hasAnimated) {
  setInView(true);
  setHasAnimated(true);
} else if (!entry.isIntersecting && options.once === false) {
  setInView(false);
}
```

We embed the pair of state variables as `InViewState` and the callback
as `observe`.  The JavaScript field `options.once` may be `true`,
`false` or absent (`undefined`); we embed it as `Option Bool`, with
`none` standing for an omitted field.  The strict comparison
`options.once === false` is `once == some false`.  An observation event
is embedded as the boolean `entry.isIntersecting` it carries.
-/

structure InViewState where
  inView : Bool
  hasAnimated : Bool
deriving DecidableEq

/-- Initial hook state: `useState(false)` for both variables. -/
def initInView : InViewState := ⟨false, false⟩

/-- One run of the IntersectionObserver callback of `useInView`
(App.jsx lines 20-27), on an entry whose `isIntersecting` flag is
`isIntersecting`. -/
def observe (once : Option Bool) (s : InViewState) (isIntersecting : Bool) : InViewState :=
  if isIntersecting && !s.hasAnimated then
    ⟨true, true⟩
  else if !isIntersecting && (once == some false) then
    ⟨false, s.hasAnimated⟩
  else
    s

/-- Process a whole sequence of observation events, oldest first. -/
def observeAll (once : Option Bool) (s : InViewState) (obs : List Bool) : InViewState :=
  obs.foldl (observe once) s

theorem observeAll_append (once : Option Bool) (s : InViewState) (a b : List Bool) :
    observeAll once s (a ++ b) = observeAll once (observeAll once s a) b :=
  List.foldl_append (observe once) s a b

/-- Unless `once` is literally `some false`, a single observation never
clears `inView`. -/
theorem observe_latched (once : Option Bool) (h : once ≠ some false)
    (s : InViewState) (b : Bool) (hs : s.inView = true) :
    (observe once s b).inView = true := by
  have hb : (once == some false) = false := by
    cases once with
    | none => rfl
    | some v =>
      cases v with
      | false => exact absurd rfl h
      | true => rfl
  rcases s with ⟨iv, ha⟩
  cases b <;> cases ha <;> cases iv <;> simp_all [observe, hb]

theorem observeAll_latched (once : Option Bool) (h : once ≠ some false)
    (obs : List Bool) (s : InViewState) (hs : s.inView = true) :
    (observeAll once s obs).inView = true := by
  induction obs generalizing s with
  | nil => exact hs
  | cons b rest ih => exact ih (observe once s b) (observe_latched once h s b hs)

/-- **C2.**  For a tracker configured with `once = true` (latchOnce),
once `inView` has become true after some prefix of observation events,
it stays true after any further observation events whatsoever. -/
theorem inView_latches_once_true (obs more : List Bool)
    (h : (observeAll (some true) initInView obs).inView = true) :
    (observeAll (some true) initInView (obs ++ more)).inView = true := by
  rw [observeAll_append]
  exact observeAll_latched (some true) (by simp) more _ h

/-- Witness for `inView_latches_once_true` at a concrete trace: the
element intersects, leaves, and the signal stays latched. -/
theorem inView_latches_once_true_witness :
    (observeAll (some true) initInView [true]).inView = true ∧
    (observeAll (some true) initInView ([true] ++ [false, false])).inView = true :=
  ⟨by decide, inView_latches_once_true [true] [false, false] (by decide)⟩

/-- The options object passed by `AnimatedSection` (App.jsx line 620) and
by the feature trackers in HomePage (part_000 line 350) is
`{ threshold: 0.1 }`: the `once` field is omitted, i.e. `undefined`. -/
def omittedOnce : Option Bool := none

/-- **C10.**  A tracker whose options omit the `once` field behaves as a
permanent latch: `undefined === false` is false in JavaScript, so the
un-latch branch never fires, and once `inView` is true it stays true
under any further observations. -/
theorem inView_latches_once_omitted (obs more : List Bool)
    (h : (observeAll omittedOnce initInView obs).inView = true) :
    (observeAll omittedOnce initInView (obs ++ more)).inView = true := by
  rw [observeAll_append]
  exact observeAll_latched omittedOnce (by simp [omittedOnce]) more _ h

/-- Witness for `inView_latches_once_omitted`: with `once` omitted the
signal latches even after the element leaves the viewport. -/
theorem inView_latches_once_omitted_witness :
    (observeAll omittedOnce initInView [true]).inView = true ∧
    (observeAll omittedOnce initInView ([true] ++ [false, true, false])).inView = true :=
  ⟨by decide, inView_latches_once_omitted [true] [false, true, false] (by decide)⟩

/-- **C1.**  The claim says that with `once = false` the signal tracks
the most recent observation, oscillating with scroll.  The code refutes
this: after the observation sequence intersecting, not-intersecting,
intersecting, the most recent observation is intersecting, yet `inView`
is false, because the `!hasAnimated` guard blocks every later rise of
the signal.  This theorem evaluates the embedded code at that failing
input. -/
theorem inView_once_false_stuck :
    (observeAll (some false) initInView [true, false, true]).inView = false ∧
    (observeAll (some false) initInView [true, false, true]).hasAnimated = true := by
  decide

/-! ### Carousel: HomePage image slider

HomePage (App.jsx lines 384-424) keeps `currentImageIndex` (initially 0)
and an interval handle.  `startAutoSlide` installs a 5000 ms periodic
timer whose tick does `i := (i + 1) % images.length`; `resetTimer`
clears the pending interval and installs a fresh one; manual handlers do

```js
handlePrevClick: i := (i - 1 + images.length) % images.length; resetTimer()
handleNextClick: i := (i + 1) % images.length; resetTimer()
```

We embed the state as `CarouselState`: the index plus the absolute time
at which the pending interval will next fire.  Every action (a tick at
its scheduled time, or a manual click which resets the timer) leaves the
next firing time exactly 5000 ms after itself.  The JavaScript
expression `(i - 1 + n) % n` is written `(i + n - 1) % n`, which is
equal to it as integer arithmetic whenever `n ≥ 1` (the operand
`i - 1 + n = i + n - 1` never goes negative). -/

/-- Auto-advance interval of the carousel, in milliseconds. -/
def fixedIntervalMs : Nat := 5000

structure CarouselState where
  index : Nat
  nextAuto : Nat
deriving DecidableEq

inductive CAction where
  | auto
  | nextClick
  | prevClick
deriving DecidableEq

/-- Effect of one carousel action happening at absolute time `t`:
an interval tick or a manual click, each followed (for clicks) by
`resetTimer`, so in every case the next tick is scheduled `t + 5000`. -/
def carouselStep (n : Nat) (t : Nat) (a : CAction) (s : CarouselState) : CarouselState :=
  match a with
  | .auto => ⟨(s.index + 1) % n, t + fixedIntervalMs⟩
  | .nextClick => ⟨(s.index + 1) % n, t + fixedIntervalMs⟩
  | .prevClick => ⟨(s.index + n - 1) % n, t + fixedIntervalMs⟩

/-- State at mount time 0: `useState(0)` and `startAutoSlide()` in the
mount effect, so the first tick is due at 5000 ms. -/
def initCarousel : CarouselState := ⟨0, fixedIntervalMs⟩

/-- Run a timed trace of carousel actions, oldest first. -/
def runCarousel (n : Nat) (s : CarouselState) (evs : List (Nat × CAction)) : CarouselState :=
  evs.foldl (fun st e => carouselStep n e.1 e.2 st) s

/-- A trace is valid after time `last` when events carry non-decreasing
times, interval ticks fire exactly when scheduled, and manual clicks
happen strictly before the pending tick. -/
def validTrace (n : Nat) (s : CarouselState) (last : Nat) : List (Nat × CAction) → Bool
  | [] => true
  | (t, a) :: rest =>
    decide (last ≤ t) &&
    (if a = .auto then decide (t = s.nextAuto) else decide (t < s.nextAuto)) &&
    validTrace n (carouselStep n t a s) t rest

/-- Time of the last event of a trace, defaulting to `d` for the empty
trace. -/
def lastTimeD (d : Nat) : List (Nat × CAction) → Nat
  | [] => d
  | (t, _) :: rest => lastTimeD t rest

theorem carouselStep_nextAuto (n t : Nat) (a : CAction) (s : CarouselState) :
    (carouselStep n t a s).nextAuto = t + fixedIntervalMs := by
  cases a <;> rfl

/-- **C4.**  In any valid carousel trace starting from a state whose
pending tick is due a full interval after the most recent action at
time `last`, every auto-advance fires exactly `fixedIntervalMs` after
the event (manual click, or earlier tick, or `last` itself) immediately
preceding it — so no auto-advance ever fires earlier than a full
interval after the most recent action of any kind. -/
theorem auto_fires_full_interval_after_last_action
    (n : Nat) (s : CarouselState) (last : Nat)
    (pre post : List (Nat × CAction)) (t : Nat)
    (hs : s.nextAuto = last + fixedIntervalMs)
    (hv : validTrace n s last (pre ++ (t, CAction.auto) :: post) = true) :
    t = lastTimeD last pre + fixedIntervalMs := by
  induction pre generalizing s last with
  | nil =>
    simp [validTrace, lastTimeD] at hv ⊢
    omega
  | cons e rest ih =>
    obtain ⟨t1, a1⟩ := e
    simp only [List.cons_append, validTrace, Bool.and_eq_true] at hv
    exact ih (carouselStep n t1 a1 s) t1 (carouselStep_nextAuto n t1 a1 s) hv.2

/-- Witness for `auto_fires_full_interval_after_last_action`: the
spec scenario — six images, a manual previous click at 1000 ms; the
following auto-advance fires at 6000 ms = 1000 ms + 5000 ms, and the
click moved the index from 0 to 5. -/
theorem auto_fires_full_interval_witness :
    initCarousel.nextAuto = 0 + fixedIntervalMs ∧
    validTrace 6 initCarousel 0 [(1000, CAction.prevClick), (6000, CAction.auto)] = true ∧
    (runCarousel 6 initCarousel [(1000, CAction.prevClick)]).index = 5 ∧
    6000 = lastTimeD 0 [(1000, CAction.prevClick)] + fixedIntervalMs :=
  ⟨by decide, by decide, by decide,
    auto_fires_full_interval_after_last_action 6 initCarousel 0
      [(1000, CAction.prevClick)] [] 6000 (by decide) (by decide)⟩

/-- After `k` next-clicks the index advances by `k` modulo `n`. -/
theorem index_after_nexts (n k : Nat) (hn : 0 < n) (s : CarouselState) (hi : s.index < n) :
    (runCarousel n s (List.replicate k (0, CAction.nextClick))).index = (s.index + k) % n := by
  induction k generalizing s with
  | zero => simpa [runCarousel] using (Nat.mod_eq_of_lt hi).symm
  | succ m ih =>
    rw [List.replicate_succ]
    have hstep : runCarousel n s ((0, CAction.nextClick) :: List.replicate m (0, CAction.nextClick)) =
        runCarousel n (carouselStep n 0 CAction.nextClick s) (List.replicate m (0, CAction.nextClick)) := rfl
    rw [hstep, ih (carouselStep n 0 CAction.nextClick s) (Nat.mod_lt _ hn)]
    show ((s.index + 1) % n + m) % n = (s.index + (m + 1)) % n
    rw [Nat.mod_add_mod, Nat.add_assoc, Nat.add_comm 1 m]

/-- **C3.**  Manual next sets the index to `(i + 1) % n`, manual
previous to `(i - 1 + n) % n` (written `(i + n - 1) % n` over ℕ);
consequently `k` consecutive next-clicks from index 0 land on `k % n`,
and a single previous-click from index 0 lands on `n - 1`. -/
theorem manual_navigation_mod (n k : Nat) (hn : 0 < n) :
    (∀ s t, (carouselStep n t CAction.nextClick s).index = (s.index + 1) % n) ∧
    (∀ s t, (carouselStep n t CAction.prevClick s).index = (s.index + n - 1) % n) ∧
    (runCarousel n initCarousel (List.replicate k (0, CAction.nextClick))).index = k % n ∧
    (carouselStep n 0 CAction.prevClick initCarousel).index = n - 1 := by
  refine ⟨fun s t => rfl, fun s t => rfl, ?_, ?_⟩
  · have h := index_after_nexts n k hn initCarousel hn
    simpa [initCarousel] using h
  · show (0 + n - 1) % n = n - 1
    rw [Nat.zero_add]
    exact Nat.mod_eq_of_lt (Nat.sub_lt hn Nat.one_pos)

/-- Witness for `manual_navigation_mod` at `n = 6`, `k = 8`: eight
next-clicks from 0 land on index 2, one previous-click lands on 5. -/
theorem manual_navigation_mod_witness :
    (runCarousel 6 initCarousel (List.replicate 8 (0, CAction.nextClick))).index = 8 % 6 ∧
    (carouselStep 6 0 CAction.prevClick initCarousel).index = 5 :=
  ⟨(manual_navigation_mod 6 8 (by decide)).2.2.1,
    (manual_navigation_mod 6 8 (by decide)).2.2.2⟩

theorem carouselStep_index_lt (n t : Nat) (hn : 0 < n) (a : CAction) (s : CarouselState) :
    (carouselStep n t a s).index < n := by
  cases a <;> exact Nat.mod_lt _ hn

/-- **C8.**  For `n > 0` the carousel index is always in `[0, n)`: it
starts at 0, each single operation (auto tick, next click, prev click)
lands in bounds via the modulo, and hence any trace from the initial
state stays in bounds. -/
theorem index_always_in_bounds (n : Nat) (hn : 0 < n) :
    initCarousel.index = 0 ∧
    (∀ s t a, (carouselStep n t a s).index < n) ∧
    (∀ evs, (runCarousel n initCarousel evs).index < n) := by
  refine ⟨rfl, fun s t a => carouselStep_index_lt n t hn a s, fun evs => ?_⟩
  have key : ∀ (l : List (Nat × CAction)) (s : CarouselState),
      s.index < n → (runCarousel n s l).index < n := by
    intro l
    induction l with
    | nil => exact fun s hs => hs
    | cons e rest ih =>
      exact fun s _ => ih (carouselStep n e.1 e.2 s) (carouselStep_index_lt n e.1 hn e.2 s)
  exact key evs initCarousel hn

/-- Witness for `index_always_in_bounds` at `n = 6` and a mixed trace. -/
theorem index_always_in_bounds_witness :
    (runCarousel 6 initCarousel
      [(5000, CAction.auto), (6000, CAction.prevClick), (7000, CAction.prevClick)]).index < 6 :=
  (index_always_in_bounds 6 (by decide)).2.2
    [(5000, CAction.auto), (6000, CAction.prevClick), (7000, CAction.prevClick)]

/-! ### Frame animator: `useFrameAnimation`

The hook (App.jsx lines 130-162) keeps `value` in React state and a
`startRef`.  Its effect, re-run whenever `trigger` changes, is

```js
if (!trigger) { setValue(0); startRef.current = null; return; }
const animate = (timestamp) => {
  if (!startRef.current) { startRef.current = timestamp; }
  const progress = timestamp - startRef.current;
  const ratio = Math.min(progress / duration, 1);
  setValue(Math.floor(ratio * endValue));
  if (ratio < 1) { requestAnimationFrame(animate); }
};
const animationFrame = requestAnimationFrame(animate);
return () => { cancelAnimationFrame(animationFrame); };
```

We embed the hook together with the requestAnimationFrame queue.
`AnimState` carries the React state (`trigger`, `value`), the ref
(`start`), and the scheduler: `nextId` is the next callback id the host
will hand out, `pending` the ids currently scheduled, and `effectId`
the id captured by the current effect's cleanup closure (the
`animationFrame` constant) — note the ids requested *inside* `animate`
are discarded by the code, so the cleanup can only ever cancel the
first one.  Timestamps and durations are embedded as ℚ (JavaScript
numbers; the claims use exact decimal values).  The falsy test
`!startRef.current` holds for both `null` and `0`, which `latchStart`
reproduces. -/

structure AnimState where
  trigger : Bool
  value : ℤ
  start : Option ℚ
  nextId : Nat
  pending : List Nat
  effectId : Option Nat
deriving DecidableEq

/-- Mount state: `useState(0)`, `useRef(null)`, and the first effect run
takes the `!trigger` branch, which requests no callback. -/
def initAnim : AnimState := ⟨false, 0, none, 0, [], none⟩

inductive AnimEvent where
  | setTrigger (b : Bool)
  | frame (i : Nat) (ts : ℚ)

/-- JavaScript `if (!startRef.current) startRef.current = timestamp`:
the ref counts as unset when it is `null` and also when it is `0`. -/
def latchStart (start : Option ℚ) (ts : ℚ) : ℚ :=
  match start with
  | none => ts
  | some v => if v = 0 then ts else v

/-- One run of the `animate` callback at timestamp `ts`: latch the
start, set `value := Math.floor(min(progress / duration, 1) * endValue)`,
and request one more callback while the ratio is below 1 (the id of
that request is discarded by the code, so `effectId` is unchanged). -/
def animate (endValue duration : ℚ) (ts : ℚ) (s : AnimState) : AnimState :=
  let start := latchStart s.start ts
  let progress := ts - start
  let r := min (progress / duration) 1
  let v := Int.floor (r * endValue)
  if r < 1 then
    { s with
        start := some start
        value := v
        pending := s.pending ++ [s.nextId]
        nextId := s.nextId + 1 }
  else
    { s with start := some start, value := v }

/-- Cleanup of the previous effect run: `cancelAnimationFrame` on the
one id it captured (none when the previous run took the `!trigger`
branch, which returns before installing a cleanup). -/
def cancelEffect (s : AnimState) : List Nat :=
  match s.effectId with
  | some i => s.pending.erase i
  | none => s.pending

/-- One event of the hook's life: a change of the `trigger` dependency
(React runs the old cleanup, then the effect body), or the host firing
the scheduled callback `i` at timestamp `ts` (a no-op if `i` was
cancelled). -/
def animStep (endValue duration : ℚ) (s : AnimState) : AnimEvent → AnimState
  | .setTrigger b =>
    if b = s.trigger then s
    else if b then
      { trigger := true
        value := s.value
        start := s.start
        nextId := s.nextId + 1
        pending := cancelEffect s ++ [s.nextId]
        effectId := some s.nextId }
    else
      { trigger := false
        value := 0
        start := none
        nextId := s.nextId
        pending := cancelEffect s
        effectId := none }
  | .frame i ts =>
    if i ∈ s.pending then
      animate endValue duration ts { s with pending := s.pending.erase i }
    else s

/-- Run a sequence of hook events, oldest first. -/
def runAnim (endValue duration : ℚ) (s : AnimState) (evs : List AnimEvent) : AnimState :=
  evs.foldl (animStep endValue duration) s

theorem animate_start_none (e d ts : ℚ) (s : AnimState) (h : s.start = none) :
    animate e d ts s =
      { s with
          start := some ts
          value := 0
          pending := s.pending ++ [s.nextId]
          nextId := s.nextId + 1 } := by
  simp only [animate, latchStart, h]
  rw [sub_self, zero_div]
  rw [min_eq_left (by norm_num : (0:ℚ) ≤ 1)]
  rw [if_pos (by norm_num : (0:ℚ) < 1), zero_mul, Int.floor_zero]

theorem animate_start_some (e d ts t0 : ℚ) (s : AnimState)
    (h : s.start = some t0) (h0 : t0 ≠ 0) :
    (animate e d ts s).value = Int.floor (min ((ts - t0) / d) 1 * e) ∧
    (animate e d ts s).start = some t0 := by
  simp only [animate, latchStart, h, if_neg h0]
  split <;> exact ⟨rfl, rfl⟩

/-- **C9.**  Whatever has happened so far, the moment `trigger` flips
from true to false the effect re-runs, takes the `!trigger` branch, and
immediately resets the reported value to 0 and clears the latched start
timestamp (back to Idle). -/
theorem untrigger_resets (e d : ℚ) (evs : List AnimEvent)
    (h : (runAnim e d initAnim evs).trigger = true) :
    (runAnim e d initAnim (evs ++ [AnimEvent.setTrigger false])).value = 0 ∧
    (runAnim e d initAnim (evs ++ [AnimEvent.setTrigger false])).start = none := by
  have hr : runAnim e d initAnim (evs ++ [AnimEvent.setTrigger false]) =
      animStep e d (runAnim e d initAnim evs) (AnimEvent.setTrigger false) := by
    simp [runAnim, List.foldl_append]
  rw [hr]
  simp [animStep, h]

/-- Witness for `untrigger_resets`: trigger on, one frame at 100 ms
(which drives the value to 0 and latches the start), then trigger off:
value is 0 and the start timestamp is cleared. -/
theorem untrigger_resets_witness :
    (runAnim 350 2000 initAnim
      [AnimEvent.setTrigger true, AnimEvent.frame 0 100]).trigger = true ∧
    (runAnim 350 2000 initAnim
      ([AnimEvent.setTrigger true, AnimEvent.frame 0 100] ++
        [AnimEvent.setTrigger false])).value = 0 ∧
    (runAnim 350 2000 initAnim
      ([AnimEvent.setTrigger true, AnimEvent.frame 0 100] ++
        [AnimEvent.setTrigger false])).start = none := by
  have ht : (runAnim 350 2000 initAnim
      [AnimEvent.setTrigger true, AnimEvent.frame 0 100]).trigger = true := by
    show (animate 350 2000 100 ⟨true, 0, none, 1, [], some 0⟩).trigger = true
    rw [animate_start_none 350 2000 100 ⟨true, 0, none, 1, [], some 0⟩ rfl]
  exact ⟨ht, (untrigger_resets 350 2000 [AnimEvent.setTrigger true, AnimEvent.frame 0 100] ht).1,
    (untrigger_resets 350 2000 [AnimEvent.setTrigger true, AnimEvent.frame 0 100] ht).2⟩

/-- **C5.**  At the moment the trigger flips on the reported value is 0,
and if the first callback runs at any nonzero timestamp `t0` and a
callback runs at `t0 + d` or later, the reported value is then exactly
the (integer) target.  Instantiated at target 350 and `d = 2000` this is
the spec scenario. -/
theorem anim_endpoints (target : Nat) (d t0 t1 : ℚ)
    (hd : 0 < d) (h0 : t0 ≠ 0) (h1 : t0 + d ≤ t1) :
    (runAnim (target : ℚ) d initAnim [AnimEvent.setTrigger true]).value = 0 ∧
    (runAnim (target : ℚ) d initAnim
      [AnimEvent.setTrigger true, AnimEvent.frame 0 t0,
        AnimEvent.frame 1 t1]).value = (target : ℤ) := by
  constructor
  · rfl
  · have h2 : animStep (target : ℚ) d (⟨true, 0, none, 1, [0], some 0⟩ : AnimState)
        (AnimEvent.frame 0 t0) = ⟨true, 0, some t0, 2, [1], some 0⟩ := by
      show animate (target : ℚ) d t0 ⟨true, 0, none, 1, [], some 0⟩ = _
      rw [animate_start_none (target : ℚ) d t0 ⟨true, 0, none, 1, [], some 0⟩ rfl]
      rfl
    have hr : runAnim (target : ℚ) d initAnim
        [AnimEvent.setTrigger true, AnimEvent.frame 0 t0, AnimEvent.frame 1 t1] =
        animStep (target : ℚ) d (⟨true, 0, some t0, 2, [1], some 0⟩ : AnimState)
          (AnimEvent.frame 1 t1) := by
      show animStep (target : ℚ) d (animStep (target : ℚ) d
        (⟨true, 0, none, 1, [0], some 0⟩ : AnimState) (AnimEvent.frame 0 t0))
        (AnimEvent.frame 1 t1) = _
      rw [h2]
    rw [hr]
    show (animate (target : ℚ) d t1 ⟨true, 0, some t0, 2, [], some 0⟩).value = (target : ℤ)
    obtain ⟨hv, -⟩ :=
      animate_start_some (target : ℚ) d t1 t0 ⟨true, 0, some t0, 2, [], some 0⟩ rfl h0
    rw [hv]
    have hge : (1 : ℚ) ≤ (t1 - t0) / d := by
      rw [le_div_iff₀ hd]
      linarith
    rw [min_eq_right hge, one_mul, Int.floor_natCast]

/-- Witness for `anim_endpoints`: target 350, duration 2000 ms, first
callback at 7 ms, final callback 2000 ms later: value reads 0 at
trigger time and exactly 350 at the end. -/
theorem anim_endpoints_witness :
    (runAnim ((350 : Nat) : ℚ) 2000 initAnim [AnimEvent.setTrigger true]).value = 0 ∧
    (runAnim ((350 : Nat) : ℚ) 2000 initAnim
      [AnimEvent.setTrigger true, AnimEvent.frame 0 7,
        AnimEvent.frame 1 2007]).value = ((350 : Nat) : ℤ) :=
  anim_endpoints 350 2000 7 2007 (by norm_num) (by norm_num) (by norm_num)

/-- **C6.**  The claim says every pending scheduled callback —
including callbacks scheduled by earlier callbacks during the run — is
cancelled when `trigger` flips false, so no state update happens after
disposal.  The code refutes this: the cleanup cancels only the id
captured at effect setup, while `animate` discards the ids of the
callbacks it requests.  Concretely (target 350, duration 2000): trigger
on, one callback at 100 ms (it schedules callback 1), trigger off — and
callback 1 is still pending.  It then fires at 200 ms, re-latches the
cleared start ref, schedules callback 2, which fires at 700 ms and
drives the disposed counter's value to 87 while `trigger` is false. -/
theorem stale_frame_survives_teardown :
    (runAnim 350 2000 initAnim
      [AnimEvent.setTrigger true, AnimEvent.frame 0 100,
        AnimEvent.setTrigger false]).pending = [1] ∧
    (runAnim 350 2000 initAnim
      [AnimEvent.setTrigger true, AnimEvent.frame 0 100, AnimEvent.setTrigger false,
        AnimEvent.frame 1 200, AnimEvent.frame 2 700]).trigger = false ∧
    (runAnim 350 2000 initAnim
      [AnimEvent.setTrigger true, AnimEvent.frame 0 100, AnimEvent.setTrigger false,
        AnimEvent.frame 1 200, AnimEvent.frame 2 700]).value = 87 := by
  have h2 : animStep 350 2000 (⟨true, 0, none, 1, [0], some 0⟩ : AnimState)
      (AnimEvent.frame 0 100) = ⟨true, 0, some 100, 2, [1], some 0⟩ := by
    show animate 350 2000 100 ⟨true, 0, none, 1, [], some 0⟩ = _
    rw [animate_start_none 350 2000 100 ⟨true, 0, none, 1, [], some 0⟩ rfl]
    rfl
  have h3 : animStep 350 2000 (⟨true, 0, some 100, 2, [1], some 0⟩ : AnimState)
      (AnimEvent.setTrigger false) = ⟨false, 0, none, 2, [1], none⟩ := rfl
  have h4 : animStep 350 2000 (⟨false, 0, none, 2, [1], none⟩ : AnimState)
      (AnimEvent.frame 1 200) = ⟨false, 0, some 200, 3, [2], none⟩ := by
    show animate 350 2000 200 ⟨false, 0, none, 2, [], none⟩ = _
    rw [animate_start_none 350 2000 200 ⟨false, 0, none, 2, [], none⟩ rfl]
    rfl
  have h5 : animStep 350 2000 (⟨false, 0, some 200, 3, [2], none⟩ : AnimState)
      (AnimEvent.frame 2 700) = ⟨false, 87, some 200, 4, [3], none⟩ := by
    show animate 350 2000 700 ⟨false, 0, some 200, 3, [], none⟩ = _
    obtain ⟨hv, hs⟩ := animate_start_some 350 2000 700 200
      ⟨false, 0, some 200, 3, [], none⟩ rfl (by norm_num)
    have hlt : min (((700 : ℚ) - 200) / 2000) 1 < 1 := by norm_num
    have : animate 350 2000 700 (⟨false, 0, some 200, 3, [], none⟩ : AnimState) =
        { (⟨false, 0, some 200, 3, [], none⟩ : AnimState) with
            start := some (latchStart (some 200) 700)
            value := Int.floor (min ((700 - latchStart (some 200) 700) / 2000) 1 * 350)
            pending := [] ++ [3]
            nextId := 3 + 1 } := by
      simp only [animate]
      rw [if_pos]
      have hl : latchStart (some (200 : ℚ)) 700 = 200 := by
        simp [latchStart]
      rw [hl]
      exact hlt
    rw [this]
    have hl : latchStart (some (200 : ℚ)) 700 = 200 := by simp [latchStart]
    rw [hl]
    have hfloor : Int.floor ((min (((700 : ℚ) - 200) / 2000) 1) * 350) = 87 := by
      norm_num
    simp only [hfloor]
    rfl
  have hr3 : runAnim 350 2000 initAnim
      [AnimEvent.setTrigger true, AnimEvent.frame 0 100, AnimEvent.setTrigger false] =
      ⟨false, 0, none, 2, [1], none⟩ := by
    show animStep 350 2000 (animStep 350 2000 (animStep 350 2000 initAnim
      (AnimEvent.setTrigger true)) (AnimEvent.frame 0 100)) (AnimEvent.setTrigger false) = _
    rw [show animStep 350 2000 initAnim (AnimEvent.setTrigger true) =
      (⟨true, 0, none, 1, [0], some 0⟩ : AnimState) from rfl, h2, h3]
  have hr5 : runAnim 350 2000 initAnim
      [AnimEvent.setTrigger true, AnimEvent.frame 0 100, AnimEvent.setTrigger false,
        AnimEvent.frame 1 200, AnimEvent.frame 2 700] =
      ⟨false, 87, some 200, 4, [3], none⟩ := by
    show animStep 350 2000 (animStep 350 2000 (animStep 350 2000 (animStep 350 2000
      (animStep 350 2000 initAnim (AnimEvent.setTrigger true)) (AnimEvent.frame 0 100))
      (AnimEvent.setTrigger false)) (AnimEvent.frame 1 200)) (AnimEvent.frame 2 700) = _
    rw [show animStep 350 2000 initAnim (AnimEvent.setTrigger true) =
      (⟨true, 0, none, 1, [0], some 0⟩ : AnimState) from rfl, h2, h3, h4, h5]
  refine ⟨?_, ?_, ?_⟩
  · rw [hr3]
  · rw [hr5]
  · rw [hr5]

/-! ### The value sequence over a run of callbacks (C7)

While `trigger` stays true every fired callback is a run of `animate`;
`animValues` records the value reported after each callback of such a
run, and `afterTrigger` is the hook state just after the trigger flips
on (before any callback has run). -/

def animValues (e d : ℚ) (s : AnimState) : List ℚ → List ℤ
  | [] => []
  | ts :: rest => (animate e d ts s).value :: animValues e d (animate e d ts s) rest

def afterTrigger (e d : ℚ) : AnimState :=
  runAnim e d initAnim [AnimEvent.setTrigger true]

theorem animValues_of_start_some (e d t0 : ℚ) (h0 : t0 ≠ 0) (ts : List ℚ) :
    ∀ s : AnimState, s.start = some t0 →
      animValues e d s ts = ts.map (fun t => Int.floor (min ((t - t0) / d) 1 * e)) := by
  induction ts with
  | nil => intro s _; rfl
  | cons t rest ih =>
    intro s hs
    obtain ⟨hv, hst⟩ := animate_start_some e d t t0 s hs h0
    simp only [animValues, List.map_cons, hv, ih (animate e d t s) hst]

theorem floor_ratio_at_start (d e t0 : ℚ) :
    Int.floor (min ((t0 - t0) / d) 1 * e) = 0 := by
  rw [sub_self, zero_div, min_eq_left (by norm_num : (0:ℚ) ≤ 1), zero_mul, Int.floor_zero]

theorem animValues_formula (e d t0 : ℚ) (h0 : t0 ≠ 0) (ts : List ℚ)
    (s : AnimState) (hs : s.start = none) :
    animValues e d s (t0 :: ts) =
      (t0 :: ts).map (fun t => Int.floor (min ((t - t0) / d) 1 * e)) := by
  have h1 := animate_start_none e d t0 s hs
  have hstart : (animate e d t0 s).start = some t0 := by rw [h1]
  have hval : (animate e d t0 s).value = 0 := by rw [h1]
  simp only [animValues, List.map_cons, hval,
    animValues_of_start_some e d t0 h0 ts (animate e d t0 s) hstart,
    floor_ratio_at_start d e t0]

/-- **C7.**  For every integer target and positive duration, along any
run of callbacks with non-decreasing timestamps (first callback at a
nonzero timestamp `t0`, as a display clock delivers) starting from the
just-triggered hook state: every reported value equals
`floor(min(elapsed / duration, 1) * target)`, the sequence is monotone
non-decreasing, it starts at 0, and once the last timestamp is at least
`t0 + d` it ends exactly at the target. -/
theorem anim_value_sequence (target : Nat) (d t0 : ℚ) (ts : List ℚ)
    (hd : 0 < d) (h0 : t0 ≠ 0)
    (hchain : List.Chain (fun a b : ℚ => a ≤ b) t0 ts) :
    animValues (target : ℚ) d (afterTrigger (target : ℚ) d) (t0 :: ts) =
      (t0 :: ts).map (fun t => Int.floor (min ((t - t0) / d) 1 * (target : ℚ))) ∧
    List.Chain' (fun a b : ℤ => a ≤ b)
      (animValues (target : ℚ) d (afterTrigger (target : ℚ) d) (t0 :: ts)) ∧
    (animValues (target : ℚ) d (afterTrigger (target : ℚ) d) (t0 :: ts)).head? = some 0 ∧
    ∀ tl : ℚ, (t0 :: ts).getLast? = some tl → t0 + d ≤ tl →
      (animValues (target : ℚ) d (afterTrigger (target : ℚ) d) (t0 :: ts)).getLast? =
        some (target : ℤ) := by
  have hform := animValues_formula (target : ℚ) d t0 h0 ts (afterTrigger (target : ℚ) d) rfl
  have hmono : ∀ a b : ℚ, a ≤ b →
      Int.floor (min ((a - t0) / d) 1 * (target : ℚ)) ≤
        Int.floor (min ((b - t0) / d) 1 * (target : ℚ)) := by
    intro a b hab
    apply Int.floor_le_floor
    apply mul_le_mul_of_nonneg_right _ (by positivity : (0:ℚ) ≤ (target : ℚ))
    exact min_le_min ((div_le_div_iff_of_pos_right hd).mpr (sub_le_sub_right hab t0)) le_rfl
  refine ⟨hform, ?_, ?_, ?_⟩
  · rw [hform, List.chain'_map]
    exact List.Chain'.imp (fun a b h => hmono a b h) hchain
  · rw [hform, List.map_cons, List.head?_cons, floor_ratio_at_start]
  · intro tl hlast hge
    rw [hform, List.getLast?_map, hlast]
    have h1 : (1 : ℚ) ≤ (tl - t0) / d := by
      rw [le_div_iff₀ hd]
      linarith
    simp [min_eq_right h1, Int.floor_natCast]

/-- Witness for `anim_value_sequence`: target 350, duration 2000 ms,
callbacks at 100, 600 and 2100 ms: the reported values are monotone,
begin at 0 and end at 350. -/
theorem anim_value_sequence_witness :
    List.Chain' (fun a b : ℤ => a ≤ b)
      (animValues ((350 : Nat) : ℚ) 2000
        (afterTrigger ((350 : Nat) : ℚ) 2000) [100, 600, 2100]) ∧
    (animValues ((350 : Nat) : ℚ) 2000
      (afterTrigger ((350 : Nat) : ℚ) 2000) [100, 600, 2100]).head? = some 0 ∧
    (animValues ((350 : Nat) : ℚ) 2000
      (afterTrigger ((350 : Nat) : ℚ) 2000) [100, 600, 2100]).getLast? =
        some ((350 : Nat) : ℤ) :=
  ⟨(anim_value_sequence 350 2000 100 [600, 2100] (by norm_num) (by norm_num)
      (by constructor <;> norm_num)).2.1,
    (anim_value_sequence 350 2000 100 [600, 2100] (by norm_num) (by norm_num)
      (by constructor <;> norm_num)).2.2.1,
    (anim_value_sequence 350 2000 100 [600, 2100] (by norm_num) (by norm_num)
      (by constructor <;> norm_num)).2.2.2 2100 (by rfl) (by norm_num)⟩

end ConstructionCo
